import Mathlib

/-!
Verification development for the TreeTalk GEDCOM import pipeline and
family-graph query engine.  Python source files are shallowly embedded as
executable Lean definitions; strings are modelled as `List Char` so that the
Python string operations (`upper`, `strip`, `split`, `startswith`, `in`,
`replace`) become structurally recursive list functions.
-/

deriving instance DecidableEq for Except

namespace TreeTalk

/-! ### Python string primitives (over `List Char`) -/

/-- Model of Python whitespace for `str.strip` / regex `\s` on the ASCII
strings handled by the parser. -/
def isWs (c : Char) : Bool := c.isWhitespace

/-- Model of `str.upper` (ASCII). -/
def pyUpper (s : List Char) : List Char := s.map Char.toUpper

/-- Model of `str.lower` (ASCII). -/
def pyLower (s : List Char) : List Char := s.map Char.toLower

def dropLeftWs (s : List Char) : List Char := s.dropWhile isWs

def dropRightWs (s : List Char) : List Char := (s.reverse.dropWhile isWs).reverse

/-- Model of `str.strip()`. -/
def pyStrip (s : List Char) : List Char := dropRightWs (dropLeftWs s)

/-- Model of Python `s.startswith(pre)`. -/
def startsWithList : List Char → List Char → Bool
  | [], _ => true
  | a :: as, s =>
    match s with
    | [] => false
    | b :: bs => a == b && startsWithList as bs

/-- Model of Python `needle in hay` (substring containment). -/
def containsSub (needle : List Char) : List Char → Bool
  | [] => needle.isEmpty
  | c :: rest => startsWithList needle (c :: rest) || containsSub needle rest

/-- Model of `s.split(sep)[0]` for a non-empty separator: the prefix of `s`
before the first occurrence of `sep` (all of `s` when `sep` does not occur). -/
def splitHead (sep : List Char) : List Char → List Char
  | [] => []
  | c :: rest =>
    if startsWithList sep (c :: rest) then [] else c :: splitHead sep rest

/-- The scan of `s.replace(sep, '')` for a non-empty `sep`: non-overlapping
occurrences, left to right.  `skip > 0` means that many characters of a
matched occurrence remain to be dropped. -/
def removeAllGo (sep : List Char) : Nat → List Char → List Char
  | _, [] => []
  | k + 1, _ :: rest => removeAllGo sep k rest
  | 0, c :: rest =>
    if startsWithList sep (c :: rest) then removeAllGo sep (sep.length - 1) rest
    else c :: removeAllGo sep 0 rest

/-- Model of `s.replace(sep, '')` (callers only use the non-empty separator
`'BET '`; an empty separator is the identity here). -/
def removeAll (sep : List Char) (s : List Char) : List Char :=
  if sep.isEmpty then s else removeAllGo sep 0 s

/-! ### Calendar dates

Model of Python `datetime.date`; `mkValidDate` carries `datetime`'s
constructor validation (`MINYEAR = 1`, `MAXYEAR = 9999`, month 1–12,
day within the month, Gregorian leap rule). -/

structure PyDate where
  year : Nat
  month : Nat
  day : Nat
deriving DecidableEq, Repr

def isLeapYear (y : Nat) : Bool := y % 4 == 0 && (y % 100 != 0 || y % 400 == 0)

def daysInMonth (y m : Nat) : Nat :=
  if m == 2 then (if isLeapYear y then 29 else 28)
  else if m == 4 || m == 6 || m == 9 || m == 11 then 30
  else 31

def mkValidDate (y m d : Nat) : Option PyDate :=
  if 1 ≤ y ∧ y ≤ 9999 ∧ 1 ≤ m ∧ m ≤ 12 ∧ 1 ≤ d ∧ d ≤ daysInMonth y m then
    some ⟨y, m, d⟩
  else none

/-! ### `GedcomParserService._normalize_date_string`
(src/backend/services/gedcom_parser.py lines 544-568) -/

/-- The GEDCOM date qualifiers stripped by `_normalize_date_string`. -/
def dateQualifiers : List (List Char) :=
  [ "ABT".data, "ABOUT".data, "EST".data, "CAL".data, "CALCULATED".data,
    "BEF".data, "BEFORE".data, "AFT".data, "AFTER".data]

/-- The qualifier loop: `if date_str.startswith(qualifier + ' '):
date_str = date_str[len(qualifier):].strip(); break`. -/
def stripQualifier : List (List Char) → List Char → List Char
  | [], d => d
  | q :: qs, d =>
    if startsWithList (q ++ [' ']) d then pyStrip (d.drop q.length)
    else stripQualifier qs d

/-- Range handling of `_normalize_date_string` (take the first date of
`X TO Y`, `X - Y`, `BET X AND Y`). -/
def rangeHandle (d : List Char) : List Char :=
  if containsSub ( " TO ".data) d then pyStrip (splitHead ( " TO ".data) d)
  else if containsSub ( " - ".data) d then pyStrip (splitHead ( " - ".data) d)
  else if containsSub ( "BET ".data) d && containsSub ( " AND ".data) d then
    pyStrip (splitHead ( " AND ".data) (removeAll ( "BET ".data) d))
  else d

/-- `GedcomParserService._normalize_date_string`. -/
def normalizeDateString (s : List Char) : List Char :=
  if s.isEmpty then []
  else rangeHandle (stripQualifier dateQualifiers (pyStrip (pyUpper s)))

/-! ### `datetime.strptime` (the subset of directives used by
`_parse_date_formats`)

CPython compiles a `strptime` format to a regular expression: `%d` becomes
`3[01]|[12]\d|0[1-9]|[1-9]`, `%m` becomes `1[0-2]|0[1-9]|[1-9]`, `%Y` four
digits, `%y` two digits (mapped to 2000–2068 / 1969–1999), `%b`/`%B`
case-insensitive month names, a space in the format becomes `\s+`, other
characters are literals; the whole input must be consumed.  The interpreter
below implements exactly that with ordered-choice backtracking, and the
missing fields default to year 1900, month 1, day 1. -/

inductive FmtTok where
  | d | m | Y | y | b | B
  | ws
  | lit (c : Char)
deriving DecidableEq, Repr

/-- Translate a `strptime` format string into tokens. -/
def toToks : List Char → List FmtTok
  | [] => []
  | '%' :: c :: rest =>
    (match c with
     | 'd' => FmtTok.d
     | 'm' => FmtTok.m
     | 'Y' => FmtTok.Y
     | 'y' => FmtTok.y
     | 'b' => FmtTok.b
     | 'B' => FmtTok.B
     | c' => FmtTok.lit c') :: toToks rest
  | ' ' :: rest => FmtTok.ws :: toToks rest
  | c :: rest => FmtTok.lit c :: toToks rest

/-- Partially-assigned year/month/day fields during a `strptime` match. -/
structure StrpEnv where
  y : Option Nat
  mo : Option Nat
  d : Option Nat
deriving DecidableEq, Repr

def digitVal (c : Char) : Nat := c.toNat - '0'.toNat

def digitsVal (l : List Char) : Nat := l.foldl (fun a c => a * 10 + digitVal c) 0

/-- Month abbreviations in uppercase (the `%b` alternatives). -/
def monthAbbrevs : List (List Char) :=
  [ "JAN".data, "FEB".data, "MAR".data, "APR".data, "MAY".data, "JUN".data,
    "JUL".data, "AUG".data, "SEP".data, "OCT".data, "NOV".data, "DEC".data]

/-- Full month names in uppercase (the `%B` alternatives). -/
def monthFulls : List (List Char) :=
  [ "JANUARY".data, "FEBRUARY".data, "MARCH".data, "APRIL".data, "MAY".data,
    "JUNE".data, "JULY".data, "AUGUST".data, "SEPTEMBER".data, "OCTOBER".data,
    "NOVEMBER".data, "DECEMBER".data]

/-- Case-insensitive literal prefix test (`re.IGNORECASE`). -/
def ciPrefix (name : List Char) (s : List Char) : Bool :=
  startsWithList name (pyUpper (s.take name.length))

/-- 1-based index of a month name in a list of alternatives. -/
def monthIndex (names : List (List Char)) (s : List Char) : Option (Nat × List Char) :=
  (names.zip (List.range names.length)).findSome? fun (nm, i) =>
    if ciPrefix nm s then some (i + 1, s.drop nm.length) else none

/-- Candidates (in regex preference order) for consuming one run of `\s+`:
greedy, backing off to a single whitespace character. -/
def wsCandidates (s : List Char) : List (List Char) :=
  let k := (s.takeWhile isWs).length
  (List.range k).map fun i => s.drop (k - i)

/-- Candidates for a 1–2 digit day (`3[01]|[12]\d|0[1-9]|[1-9]`): the two-digit
alternatives come first, then a single digit `1-9`. -/
def dayCandidates : List Char → List (Nat × List Char)
  | c1 :: c2 :: rest =>
    (if c1.isDigit && c2.isDigit &&
        ((c1 == '3' && (c2 == '0' || c2 == '1')) ||
         (c1 == '1' || c1 == '2') || (c1 == '0' && c2 != '0')) then
      [(digitsVal [c1, c2], rest)] else []) ++
    (if c1.isDigit && c1 != '0' then [(digitVal c1, c2 :: rest)] else [])
  | [c1] => if c1.isDigit && c1 != '0' then [(digitVal c1, [])] else []
  | [] => []

/-- Candidates for a 1–2 digit month (`1[0-2]|0[1-9]|[1-9]`). -/
def monthCandidates : List Char → List (Nat × List Char)
  | c1 :: c2 :: rest =>
    (if c1.isDigit && c2.isDigit &&
        ((c1 == '1' && (c2 == '0' || c2 == '1' || c2 == '2')) ||
         (c1 == '0' && c2 != '0')) then
      [(digitsVal [c1, c2], rest)] else []) ++
    (if c1.isDigit && c1 != '0' then [(digitVal c1, c2 :: rest)] else [])
  | [c1] => if c1.isDigit && c1 != '0' then [(digitVal c1, [])] else []
  | [] => []

/-- Exactly `n` digits. -/
def fixedDigits (n : Nat) (s : List Char) : Option (Nat × List Char) :=
  let pre := s.take n
  if pre.length == n && pre.all Char.isDigit then some (digitsVal pre, s.drop n)
  else none

/-- CPython's `%y` pivot: `0..68 ↦ 2000..2068`, `69..99 ↦ 1969..1999`. -/
def yyToYear (v : Nat) : Nat := if v ≤ 68 then 2000 + v else 1900 + v

/-- Candidate `(env, rest)` pairs for one format token, in regex preference
order. -/
def tokCandidates (tok : FmtTok) (s : List Char) (env : StrpEnv) :
    List (StrpEnv × List Char) :=
  match tok with
  | FmtTok.d => (dayCandidates s).map fun (v, r) => ({ env with d := some v }, r)
  | FmtTok.m => (monthCandidates s).map fun (v, r) => ({ env with mo := some v }, r)
  | FmtTok.Y =>
    match fixedDigits 4 s with
    | some (v, r) => [({ env with y := some v }, r)]
    | none => []
  | FmtTok.y =>
    match fixedDigits 2 s with
    | some (v, r) => [({ env with y := some (yyToYear v) }, r)]
    | none => []
  | FmtTok.b =>
    match monthIndex monthAbbrevs s with
    | some (i, r) => [({ env with mo := some i }, r)]
    | none => []
  | FmtTok.B =>
    match monthIndex monthFulls s with
    | some (i, r) => [({ env with mo := some i }, r)]
    | none => []
  | FmtTok.ws => (wsCandidates s).map fun r => (env, r)
  | FmtTok.lit c => match s with
    | c' :: rest => if c == c' then [(env, rest)] else []
    | [] => []

/-- Backtracking matcher: ordered choice over each token's candidates, the
whole input must be consumed (`unconverted data remains` otherwise). -/
def matchToks : List FmtTok → List Char → StrpEnv → Option StrpEnv
  | [], s, env => if s.isEmpty then some env else none
  | tok :: toks, s, env =>
    (tokCandidates tok s env).findSome? fun (env', rest) => matchToks toks rest env'

/-- `datetime.strptime(s, fmt).date()`, `none` both on match failure and on an
out-of-range date (`ValueError`). -/
def strptimeFormat (fmt : List Char) (s : List Char) : Option PyDate :=
  match matchToks (toToks fmt) s ⟨none, none, none⟩ with
  | none => none
  | some env => mkValidDate (env.y.getD 1900) (env.mo.getD 1) (env.d.getD 1)

/-! ### `GedcomParserService._parse_date_formats`
(src/backend/services/gedcom_parser.py lines 570-687) -/

/-- The `date_formats` list tried in order. -/
def dateFormats : List (List Char) :=
  [ "%d %b %Y".data, "%d %B %Y".data, "%b %d %Y".data, "%B %d %Y".data,
    "%d/%m/%Y".data, "%m/%d/%Y".data, "%Y-%m-%d".data, "%d-%m-%Y".data,
    "%m-%d-%Y".data, "%d.%m.%Y".data, "%d %m %Y".data,
    "%d %b, %Y".data, "%b %d, %Y".data, "%d-%b-%Y".data, "%b-%d-%Y".data,
    "%d %b %y".data, "%m/%d/%y".data, "%d/%m/%y".data, "%Y.%m.%d".data,
    "%d.%m.%y".data,
    "%b %Y".data, "%B %Y".data, "%m/%Y".data, "%Y-%m".data, "%m %Y".data,
    "%b %y".data, "%m/%y".data,
    "%Y".data, "%y".data]

/-- The month alternation of the fallback regexes, in the order written in the
source pattern (abbreviations first, then full names). -/
def regexMonthAlternation : List (List Char) :=
  monthAbbrevs ++ monthFulls

/-- The `month_names` dictionary of the fallback paths (identical in both
fallbacks): month name to month number. -/
def monthNames : List (List Char × Nat) :=
  (monthAbbrevs.zip (List.range' 1 12)) ++ (monthFulls.zip (List.range' 1 12))

def monthNamesGet (k : List Char) : Option Nat :=
  (monthNames.find? fun p => p.1 == pyUpper k).map Prod.snd

/-- Match `(\d{1,2})\s+(month alternation)\s+(\d{4})` at the start of `s`,
with regex backtracking (greedy digits and whitespace, ordered month
alternatives). -/
def matchDMYAt (s : List Char) : Option (Nat × List Char × Nat) :=
  (dayDigitCandidates s).findSome? fun (d, s1) =>
  (wsCandidates s1).findSome? fun s2 =>
  regexMonthAlternation.findSome? fun mn =>
    if ciPrefix mn s2 then
      (wsCandidates (s2.drop mn.length)).findSome? fun s4 =>
      match fixedDigits 4 s4 with
      | some (y, _) => some (d, mn, y)
      | none => none
    else none
where
  /-- `\d{1,2}` greedy: two digits first, then one. -/
  dayDigitCandidates : List Char → List (Nat × List Char)
    | c1 :: c2 :: rest =>
      (if c1.isDigit && c2.isDigit then [(digitsVal [c1, c2], rest)] else []) ++
      (if c1.isDigit then [(digitVal c1, c2 :: rest)] else [])
    | [c1] => if c1.isDigit then [(digitVal c1, [])] else []
    | [] => []

/-- `re.search` for the day-month-year pattern: leftmost match. -/
def searchDMY : List Char → Option (Nat × List Char × Nat)
  | [] => none
  | c :: rest =>
    match matchDMYAt (c :: rest) with
    | some r => some r
    | none => searchDMY rest

/-- Match `(month alternation)\s+(\d{4})` at the start of `s`. -/
def matchMYAt (s : List Char) : Option (List Char × Nat) :=
  regexMonthAlternation.findSome? fun mn =>
    if ciPrefix mn s then
      (wsCandidates (s.drop mn.length)).findSome? fun s2 =>
      match fixedDigits 4 s2 with
      | some (y, _) => some (mn, y)
      | none => none
    else none

/-- `re.search` for the month-year pattern: leftmost match. -/
def searchMY : List Char → Option (List Char × Nat)
  | [] => none
  | c :: rest =>
    match matchMYAt (c :: rest) with
    | some r => some r
    | none => searchMY rest

def isWordChar (c : Char) : Bool := c.isAlphanum || c == '_'

/-- Match `(1[5-9]\d{2}|20\d{2})\b` at the start of `s` (the leading `\b` is
checked by the caller via the preceding character). -/
def matchYearAt : List Char → Option Nat
  | c1 :: c2 :: c3 :: c4 :: rest =>
    if c3.isDigit && c4.isDigit &&
        ((c1 == '1' && ('5' ≤ c2 && c2 ≤ '9')) || (c1 == '2' && c2 == '0')) &&
        (match rest with | [] => true | c5 :: _ => !isWordChar c5) then
      some (digitsVal [c1, c2, c3, c4])
    else none
  | _ => none

/-- `re.search(r'\b(1[5-9]\d{2}|20\d{2})\b', s)`: leftmost position at a word
boundary. -/
def searchYear (prev : Option Char) : List Char → Option Nat
  | [] => none
  | c :: rest =>
    match (if (match prev with | none => true | some p => !isWordChar p) then
             matchYearAt (c :: rest) else none) with
    | some y => some y
    | none => searchYear (some c) rest

/-- Fallback 1: regex day + month name + year, validated through
`datetime(...)`; an invalid date falls through (`except ... : pass`). -/
def tryDMY (s : List Char) : Option PyDate :=
  match searchDMY s with
  | some (d, mn, y) =>
    match monthNamesGet mn with
    | some m => mkValidDate y m d
    | none => none
  | none => none

/-- Fallback 2: regex month name + year, day defaulting to 1. -/
def tryMY (s : List Char) : Option PyDate :=
  match searchMY s with
  | some (mn, y) =>
    match monthNamesGet mn with
    | some m => mkValidDate y m 1
    | none => none
  | none => none

/-- Fallback 3: a bare year 1500–2099, defaulting to January 1st. -/
def tryYearOnly (s : List Char) : Option PyDate :=
  (searchYear none s).map fun y => ⟨y, 1, 1⟩

/-- `GedcomParserService._parse_date_formats`. -/
def parseDateFormats (s : List Char) : Option PyDate :=
  if s.isEmpty then none
  else
    match dateFormats.findSome? (fun fmt => strptimeFormat fmt s) with
    | some d => some d
    | none =>
      match tryDMY s with
      | some d => some d
      | none =>
        match tryMY s with
        | some d => some d
        | none => tryYearOnly s

/-- `GedcomParserService._parse_date` applied to a DATE element whose value is
`s` (`_extract_date_string` returns the element's value; every failure path
degrades to `None`, nothing is raised). -/
def parseDate (s : List Char) : Option PyDate :=
  if s.isEmpty then none
  else parseDateFormats (normalizeDateString s)

/-! ### The `Person` model (src/backend/models/person.py)

UUID primary keys are modelled as `Nat`; nullable string columns as
`Option (List Char)` where `none` is SQL NULL / Python `None` (an empty list
inside `some` models the distinct, equally falsy, empty string). Only the
columns the verified operations read are carried. -/

structure Person where
  id : Nat
  sourceId : Nat
  gedcomId : List Char
  givenNames : Option (List Char)
  surname : Option (List Char)
  nickname : Option (List Char)
  gender : Option (List Char)
  birthDate : Option PyDate
  deathDate : Option PyDate
  isLiving : Bool
deriving DecidableEq, Repr

/-- Python truthiness of an optional string (`None` and `''` are falsy). -/
def optTruthy : Option (List Char) → Bool
  | none => false
  | some l => !l.isEmpty

/-- `Person.get_full_name`: `" ".join(parts) or "Unknown"` over the stripped
truthy name fields. -/
def getFullName (p : Person) : List Char :=
  let parts :=
    (match p.givenNames with
     | some g => if g.isEmpty then [] else [pyStrip g]
     | none => []) ++
    (match p.surname with
     | some s => if s.isEmpty then [] else [pyStrip s]
     | none => [])
  let joined := List.intercalate [' '] parts
  if joined.isEmpty then "Unknown".data else joined

/-- `Person.get_age(at_date)`: the system clock (`date.today()`) is passed
explicitly as `today`.  `at_date or self.death_date` is Python's falsy
coalescing (a `date` object is always truthy). -/
def getAge (p : Person) (atDate : Option PyDate) (today : PyDate) : Option Int :=
  match p.birthDate with
  | none => none
  | some b =>
    let endDate := (match atDate with
      | some d => some d
      | none => p.deathDate).getD today
    let age : Int := (endDate.year : Int) - (b.year : Int)
    let age := if endDate.month < b.month ∨
        (endDate.month = b.month ∧ endDate.day < b.day) then age - 1 else age
    some (max 0 age)

/-! ### The `Source`, `Relationship`, `Event`, `Place` models
(src/backend/models/) -/

structure Source where
  id : Nat
  name : List Char
  filename : List Char
  fileHash : List Char
  fileSize : Nat
  status : List Char
  personsCount : Nat
  familiesCount : Nat
  errorMessage : Option (List Char)
  notes : Option (List Char)
  isActive : Bool
deriving DecidableEq, Repr

/-- `Source.mark_completed` (source.py lines 129-140). -/
def markCompleted (s : Source) (personsCount familiesCount : Nat) : Source :=
  { s with status := "completed".data, personsCount := personsCount,
           familiesCount := familiesCount }

/-- `Source.mark_error` (source.py lines 142-151). -/
def markError (s : Source) (errorMessage : List Char) : Source :=
  { s with status := "error".data, errorMessage := some errorMessage }

structure Rel where
  sourceId : Nat
  person1Id : Nat
  person2Id : Nat
  relType : List Char
  relSubtype : Option (List Char)
  isPrimary : Bool
  isCurrent : Bool
  marriageDate : Option PyDate
deriving DecidableEq, Repr

structure EventR where
  sourceId : Nat
  personId : Nat
  eventType : List Char
  eventDate : Option PyDate
  placeId : Option Nat
  isPrimary : Bool
  description : Option (List Char)
deriving DecidableEq, Repr

structure PlaceR where
  id : Nat
  sourceId : Nat
  name : List Char
  placeType : List Char
deriving DecidableEq, Repr

/-- The relational store.  `nextId` models the primary-key generator
(`uuid4`); `failIds` models the external database collaborator, which may
raise on `flush` of a person row (for example a constraint violation):
flushing a person whose `gedcom_id` is listed raises, all other writes
succeed.  A raised insert leaves the row unpersisted. -/
structure DB where
  sources : List Source
  persons : List Person
  relationships : List Rel
  events : List EventR
  places : List PlaceR
  nextId : Nat
  failIds : List (List Char)
deriving DecidableEq, Repr

/-! ### GEDCOM element trees (the external `gedcom` parser's shape) -/

inductive RecKind where
  | indi | fam | other
deriving DecidableEq, Repr, BEq

/-- A child element: `get_tag()`, `get_value()` (the empty list models
`None`/`''`, both falsy), `get_child_elements()`. -/
inductive GElem where
  | mk (tag : List Char) (value : List Char) (children : List GElem)

def GElem.tag : GElem → List Char
  | .mk t _ _ => t

def GElem.value : GElem → List Char
  | .mk _ v _ => v

def GElem.children : GElem → List GElem
  | .mk _ _ c => c

/-- A top-level record of `get_element_list()`: its `isinstance` class
(`IndividualElement` / `FamilyElement` / other), `get_pointer()` and
`get_child_elements()`. -/
structure GRecord where
  kind : RecKind
  pointer : List Char
  children : List GElem

/-! ### `GedcomParserService` state and import steps
(src/backend/services/gedcom_parser.py) -/

/-- Mutable service state: the database session, `self.source_record`,
`self.person_map` (GEDCOM pointer to person id) and `self.place_cache`.
Python dict semantics: insertion appends, lookup takes the last write. -/
structure ImportState where
  db : DB
  sourceRecord : Option Source
  personMap : List (List Char × Nat)
  placeCache : List (List Char × Nat)
deriving DecidableEq, Repr

/-- Dict lookup (`d.get(k)`): the most recent write wins. -/
def amGet (m : List (List Char × Nat)) (k : List Char) : Option Nat :=
  (m.reverse.find? fun p => p.1 == k).map Prod.snd

/-- Accumulator of the extraction loop of `_import_individual`
(lines 216-248). -/
structure IndiAcc where
  givenNames : Option (List Char) := none
  surname : Option (List Char) := none
  gender : Option (List Char) := none
  birthDate : Option PyDate := none
  deathDate : Option PyDate := none
  birthPlace : Option (List Char) := none
  deathPlace : Option (List Char) := none
deriving DecidableEq, Repr

/-- One iteration of the `for child_elem in individual.get_child_elements()`
loop. -/
def stepIndi (acc : IndiAcc) (e : GElem) : IndiAcc :=
  if e.tag == "NAME".data then
    if e.value.isEmpty then acc
    else
      let parts := e.value.splitOn '/'
      { acc with givenNames := some (pyStrip (parts.getD 0 [])),
                 surname := (parts.get? 1).map pyStrip }
  else if e.tag == "SEX".data then
    { acc with gender :=
        if e.value.isEmpty then none else some ((pyUpper e.value).take 1) }
  else if e.tag == "BIRT".data then
    e.children.foldl (fun a c =>
      if c.tag == "DATE".data then { a with birthDate := parseDate c.value }
      else if c.tag == "PLAC".data then { a with birthPlace := some c.value }
      else a) acc
  else if e.tag == "DEAT".data then
    e.children.foldl (fun a c =>
      if c.tag == "DATE".data then { a with deathDate := parseDate c.value }
      else if c.tag == "PLAC".data then { a with deathPlace := some c.value }
      else a) acc
  else acc

def extractIndi (children : List GElem) : IndiAcc :=
  children.foldl stepIndi {}

/-- `GedcomParserService._get_or_create_place` (lines 364-391). -/
def getOrCreatePlace (st : ImportState) (src : Source) (placeName : List Char) :
    ImportState × Option Nat :=
  if placeName.isEmpty then (st, none)
  else
    match amGet st.placeCache placeName with
    | some pid => (st, some pid)
    | none =>
      match st.db.places.find? fun pl => pl.name == placeName with
      | some pl =>
        ({ st with placeCache := st.placeCache ++ [(placeName, pl.id)] }, some pl.id)
      | none =>
        let pl : PlaceR := { id := st.db.nextId, sourceId := src.id,
                             name := placeName, placeType := "unknown".data }
        let db := { st.db with places := st.db.places ++ [pl],
                               nextId := st.db.nextId + 1 }
        ({ st with db := db,
                   placeCache := st.placeCache ++ [(placeName, pl.id)] },
         some pl.id)

/-- Accumulator of the per-event extraction loop of
`_import_additional_events` (lines 467-475). -/
structure EvAcc where
  eventDate : Option PyDate := none
  eventPlace : Option (List Char) := none
  description : Option (List Char) := none
deriving DecidableEq, Repr

/-- `GedcomParserService._import_additional_events` (lines 428-492). -/
def importAdditionalEvents (st : ImportState) (src : Source) (r : GRecord)
    (person : Person) : ImportState :=
  r.children.foldl (fun st e =>
    if e.tag == "NAME".data || e.tag == "SEX".data || e.tag == "BIRT".data ||
       e.tag == "DEAT".data then st
    else
      let evType : Option (List Char × Option (List Char)) :=
        if e.tag == "RESI".data then some ( "residence".data, none)
        else if e.tag == "OCCU".data then some ( "occupation".data, some e.value)
        else if e.tag == "MARR".data then some ( "marriage".data, none)
        else if e.tag == "BAPM".data || e.tag == "CHR".data then
          some ( "baptism".data, none)
        else if e.tag == "BURI".data then some ( "burial".data, none)
        else if e.tag == "EDUC".data then some ( "education".data, some e.value)
        else if e.tag == "EMIG".data then some ( "emigration".data, none)
        else if e.tag == "IMMI".data then some ( "immigration".data, none)
        else if e.tag == "NATU".data then some ( "naturalization".data, none)
        else none
      match evType with
      | none => st
      | some (ty, desc0) =>
        let acc := e.children.foldl (fun (a : EvAcc) c =>
          if c.tag == "DATE".data then { a with eventDate := parseDate c.value }
          else if c.tag == "PLAC".data then { a with eventPlace := some c.value }
          else if c.tag == "NOTE".data then
            (if optTruthy a.description then a
             else { a with description := some c.value })
          else a) { description := desc0 }
        let (st, placeId) :=
          if optTruthy acc.eventPlace then
            getOrCreatePlace st src (acc.eventPlace.getD [])
          else (st, none)
        let ev : EventR := { sourceId := src.id, personId := person.id,
                             eventType := ty, eventDate := acc.eventDate,
                             placeId := placeId, isPrimary := false,
                             description := acc.description }
        { st with db := { st.db with events := st.db.events ++ [ev] } }) st

/-- `GedcomParserService._import_person_events` (lines 393-426). -/
def importPersonEvents (st : ImportState) (src : Source) (r : GRecord)
    (person : Person) (birthPlace deathPlace : Option (List Char)) :
    ImportState :=
  let st :=
    if person.birthDate.isSome || optTruthy birthPlace then
      let (st, placeId) :=
        if optTruthy birthPlace then getOrCreatePlace st src (birthPlace.getD [])
        else (st, none)
      let ev : EventR := { sourceId := src.id, personId := person.id,
                           eventType := "birth".data,
                           eventDate := person.birthDate, placeId := placeId,
                           isPrimary := true, description := none }
      { st with db := { st.db with events := st.db.events ++ [ev] } }
    else st
  let st :=
    if person.deathDate.isSome || optTruthy deathPlace then
      let (st, placeId) :=
        if optTruthy deathPlace then getOrCreatePlace st src (deathPlace.getD [])
        else (st, none)
      let ev : EventR := { sourceId := src.id, personId := person.id,
                           eventType := "death".data,
                           eventDate := person.deathDate, placeId := placeId,
                           isPrimary := true, description := none }
      { st with db := { st.db with events := st.db.events ++ [ev] } }
    else st
  importAdditionalEvents st src r person

/-- The body of `GedcomParserService._import_individual` (lines 214-273):
extraction, person construction (`is_living = death_date is None`), the
fallible `flush`, person-map caching and event import.  The `Except` error is
the exception the surrounding `try` catches. -/
def importIndividualBody (st : ImportState) (r : GRecord) :
    Except (List Char) (ImportState × Person) :=
  match st.sourceRecord with
  | none => Except.error ( "no source record".data)
  | some src =>
    let acc := extractIndi r.children
    let person : Person :=
      { id := st.db.nextId, sourceId := src.id, gedcomId := r.pointer,
        givenNames := acc.givenNames, surname := acc.surname, nickname := none,
        gender := acc.gender, birthDate := acc.birthDate,
        deathDate := acc.deathDate, isLiving := acc.deathDate.isNone }
    if r.pointer ∈ st.db.failIds then
      Except.error ( "flush failed: ".data ++ r.pointer)
    else
      let db := { st.db with persons := st.db.persons ++ [person],
                             nextId := st.db.nextId + 1 }
      let st := { st with db := db,
                          personMap := st.personMap ++ [(r.pointer, person.id)] }
      let st := importPersonEvents st src r person acc.birthPlace acc.deathPlace
      Except.ok (st, person)

/-- `GedcomParserService._import_individual` with its own `except Exception`
(lines 275-277): a failure is caught, logged and degraded to `None` — it is
never re-raised. -/
def importIndividual (st : ImportState) (r : GRecord) :
    Except (List Char) (ImportState × Option Person) :=
  match importIndividualBody st r with
  | Except.ok (st', p) => Except.ok (st', some p)
  | Except.error _ => Except.ok (st, none)

/-- Accumulator of the extraction loop of `_import_family` (lines 292-312). -/
structure FamAcc where
  husbandId : List Char := []
  wifeId : List Char := []
  childrenIds : List (List Char) := []
  marriageDate : Option PyDate := none
deriving DecidableEq, Repr

def extractFam (children : List GElem) : FamAcc :=
  children.foldl (fun acc e =>
    if e.tag == "HUSB".data then { acc with husbandId := e.value }
    else if e.tag == "WIFE".data then { acc with wifeId := e.value }
    else if e.tag == "CHIL".data then
      { acc with childrenIds := acc.childrenIds ++ [e.value] }
    else if e.tag == "MARR".data then
      e.children.foldl (fun a c =>
        if c.tag == "DATE".data then { a with marriageDate := parseDate c.value }
        else a) acc
    else acc) {}

/-- `GedcomParserService._import_family` (lines 279-362); its internal
`except` returns `[]`, so the function is total. -/
def importFamily (st : ImportState) (r : GRecord) : ImportState × List Rel :=
  match st.sourceRecord with
  | none => (st, [])
  | some src =>
    let f := extractFam r.children
    let (st, rels) :=
      if !f.husbandId.isEmpty && !f.wifeId.isEmpty then
        match amGet st.personMap f.husbandId, amGet st.personMap f.wifeId with
        | some h, some w =>
          let rel : Rel := { sourceId := src.id, person1Id := h, person2Id := w,
                             relType := "spouse".data, relSubtype := none,
                             isPrimary := true, isCurrent := true,
                             marriageDate := f.marriageDate }
          ({ st with db := { st.db with
              relationships := st.db.relationships ++ [rel] } }, [rel])
        | _, _ => (st, ([] : List Rel))
      else (st, ([] : List Rel))
    let parents :=
      (if !f.husbandId.isEmpty then (amGet st.personMap f.husbandId).toList
       else []) ++
      (if !f.wifeId.isEmpty then (amGet st.personMap f.wifeId).toList else [])
    f.childrenIds.foldl (fun (st, rels) cid =>
      match amGet st.personMap cid with
      | some child =>
        parents.foldl (fun (st, rels) par =>
          let pc : Rel := { sourceId := src.id, person1Id := par,
                            person2Id := child,
                            relType := "parent-child".data,
                            relSubtype := some ( "biological".data),
                            isPrimary := true, isCurrent := true,
                            marriageDate := none }
          ({ st with db := { st.db with
              relationships := st.db.relationships ++ [pc] } },
           rels ++ [pc])) (st, rels)
      | none => (st, rels)) (st, rels)

/-- `_import_family` as seen by the caller's `try` (lines 184-190): the
internal catch means it never raises. -/
def importFamilyE (st : ImportState) (r : GRecord) :
    Except (List Char) (ImportState × List Rel) :=
  Except.ok (importFamily st r)

/-- The `stats` dictionary of `_import_gedcom_data`. -/
structure ImportStats where
  personsImported : Nat := 0
  relationshipsImported : Nat := 0
  eventsImported : Nat := 0
  placesImported : Nat := 0
  errors : List (List Char) := []
deriving DecidableEq, Repr

/-- One iteration of the individual loop of `_import_gedcom_data`
(lines 170-177): count a successful import, append
`Person import error: ...` if `_import_individual` raised. -/
def indiStep (acc : ImportState × ImportStats) (r : GRecord) :
    ImportState × ImportStats :=
  match importIndividual acc.1 r with
  | Except.ok (st', p) =>
    (st', if p.isSome then
      { acc.2 with personsImported := acc.2.personsImported + 1 } else acc.2)
  | Except.error e =>
    (acc.1, { acc.2 with
      errors := acc.2.errors ++ [ "Person import error: ".data ++ e] })

/-- One iteration of the family loop of `_import_gedcom_data`
(lines 184-190). -/
def famStep (acc : ImportState × ImportStats) (r : GRecord) :
    ImportState × ImportStats :=
  match importFamilyE acc.1 r with
  | Except.ok (st', rels) =>
    (st', { acc.2 with
      relationshipsImported := acc.2.relationshipsImported + rels.length })
  | Except.error e =>
    (acc.1, { acc.2 with
      errors := acc.2.errors ++ [ "Family import error: ".data ++ e] })

/-- `GedcomParserService._import_gedcom_data` (lines 154-202): the individual
pass, the family pass, and the place-count rollup. -/
def importGedcomData (st : ImportState) (recs : List GRecord) :
    ImportStats × ImportState :=
  let indis := recs.filter fun r => r.kind == RecKind.indi
  let afterIndis := indis.foldl indiStep (st, ({} : ImportStats))
  let fams := recs.filter fun r => r.kind == RecKind.fam
  let afterFams := fams.foldl famStep afterIndis
  ({ afterFams.2 with placesImported := afterFams.1.placeCache.length },
   afterFams.1)

/-- `GedcomParserService._check_duplicate_import` (lines 125-133): any source
row with the same content hash — active or not — aborts the import with
`ValueError(f"File already imported: {existing_source.name}")`. -/
def checkDuplicateImport (db : DB) (fileHash : List Char) :
    Option (List Char) :=
  match db.sources.find? fun s => s.fileHash == fileHash with
  | some existing => some ( "File already imported: ".data ++ existing.name)
  | none => none

/-- Replace the row of `src` in the sources table (the ORM object is the
row). -/
def updateSource (db : DB) (src : Source) : DB :=
  { db with sources := db.sources.map fun s => if s.id == src.id then src else s }

/-- `GedcomParserService.parse_and_import_file` (lines 63-119).  The SHA-256
hash and the external GEDCOM syntax parser are explicit collaborator
parameters; the returned `Except` is the raised/returned outcome and the
returned `DB` the committed store.  On any exception after the source row was
created, the row is marked `error` with the exception text and committed
(lines 114-119). -/
def parseAndImportFile (hashFn : List Char → List Char)
    (parseFn : List Char → Except (List Char) (List GRecord))
    (db : DB) (content filename : List Char)
    (sourceName : Option (List Char)) :
    DB × Except (List Char) (Source × ImportStats) :=
  let fileHash := hashFn content
  match checkDuplicateImport db fileHash with
  | some msg => (db, Except.error msg)
  | none =>
    let src : Source :=
      { id := db.nextId, name := sourceName.getD filename,
        filename := filename, fileHash := fileHash,
        fileSize := content.length, status := "processing".data,
        personsCount := 0, familiesCount := 0, errorMessage := none,
        notes := none, isActive := true }
    let db := { db with sources := db.sources ++ [src], nextId := db.nextId + 1 }
    match parseFn content with
    | Except.error e => (updateSource db (markError src e), Except.error e)
    | Except.ok recs =>
      let st : ImportState :=
        { db := db, sourceRecord := some src, personMap := [], placeCache := [] }
      let (stats, st) := importGedcomData st recs
      let src := markCompleted src stats.personsImported
        stats.relationshipsImported
      let src := if stats.errors.isEmpty then src
        else { src with notes := some ( "errors occurred during import".data) }
      (updateSource st.db src, Except.ok (src, stats))

/-! ### `FamilyService` (src/backend/services/family_service.py) -/

/-- `Relationship.get_other_person_id` (relationship.py lines 162-176). -/
def getOtherPersonId (r : Rel) (personId : Nat) : Option Nat :=
  if personId == r.person1Id then some r.person2Id
  else if personId == r.person2Id then some r.person1Id
  else none

/-- The per-candidate source check of `_get_related_persons`
(family_service.py lines 333-343). -/
def existsPersonInSource (db : DB) (sid : Nat) (pid : Nat) : Bool :=
  db.persons.any fun p => p.id == pid && p.sourceId == sid

/-- The innermost step of the next-generation collection of
`_get_related_persons` (lines 328-345): one relationship and one frontier
person, adding the other endpoint to the set unless it was visited. -/
def collectOther (db : DB) (srcId : Option Nat) (visited : List Nat) (r : Rel)
    (nx : List Nat) (pid : Nat) : List Nat :=
  match getOtherPersonId r pid with
  | some other =>
    if !visited.contains other && !nx.contains other &&
       (match srcId with
        | some sid => existsPersonInSource db sid other
        | none => true) then nx ++ [other]
    else nx
  | none => nx

/-- The `for person_id in current_generation` loop for one relationship. -/
def collectFromRel (db : DB) (srcId : Option Nat) (visited : List Nat)
    (current : List Nat) (nx : List Nat) (r : Rel) : List Nat :=
  current.foldl (collectOther db srcId visited r) nx

/-- The generation loop of `FamilyService._get_related_persons`
(family_service.py lines 285-349): bounded by the generation budget, with a
visited set and a per-generation frontier.  Python's sets are modelled as
duplicate-free lists (additions check membership); only membership is
observable. -/
def relatedGo (db : DB) (srcId : Option Nat) :
    Nat → List Nat → List Nat → List Person → List Person
  | 0, _, _, acc => acc
  | g + 1, visited, current, acc =>
    if current.isEmpty then acc
    else
      let genPersons := db.persons.filter fun p =>
        current.contains p.id &&
        (match srcId with | some sid => p.sourceId == sid | none => true)
      let acc := acc ++ genPersons
      let visited := visited ++ current
      let rels := db.relationships.filter fun r =>
        current.contains r.person1Id || current.contains r.person2Id
      let next := rels.foldl (collectFromRel db srcId visited current) []
      relatedGo db srcId g visited next acc

/-- `FamilyService._get_related_persons`. -/
def relatedPersons (db : DB) (focalPersonId : Nat) (maxGenerations : Nat)
    (srcId : Option Nat) : List Person :=
  relatedGo db srcId maxGenerations [] [focalPersonId] []

/-- SQL `col ILIKE '%term%'` on a nullable column (NULL never matches). -/
def ilikeMatch (col : Option (List Char)) (term : List Char) : Bool :=
  match col with
  | none => false
  | some v => containsSub (pyLower term) (pyLower v)

/-- `concat(coalesce(given_names, ''), ' ', coalesce(surname, ''))`
(family_service.py lines 126-130). -/
def concatNames (p : Person) : List Char :=
  p.givenNames.getD [] ++ ' ' :: p.surname.getD []

/-- The search condition of `search_persons` (lines 118-132). -/
def searchCond (p : Person) (term : List Char) : Bool :=
  ilikeMatch p.givenNames term || ilikeMatch p.surname term ||
  ilikeMatch p.nickname term ||
  containsSub (pyLower term) (pyLower (concatNames p))

/-- `FamilyService._calculate_search_relevance` (lines 403-436).  The Python
score is a float built from the constants 10.0, 5.0, 3.0, 2.0, 0.5; all of
them and all reachable sums (at most 21.0) are exactly representable, so
float arithmetic is exact here.  The score is modelled in half-units
(`10.0 ↦ 20`, `5.0 ↦ 10`, `3.0 ↦ 6`, `2.0 ↦ 4`, `0.5 ↦ 1`), an order- and
equality-preserving change of scale. -/
def calcSearchRelevance (p : Person) (query : List Char) : Int :=
  if (pyStrip query).isEmpty then 0
  else
    let ql := pyStrip (pyLower query)
    let fullName := pyLower (getFullName p)
    let score : Int := if ql == fullName then 20
      else if containsSub ql fullName then 10 else 0
    let score := score + (match p.givenNames with
      | some g => if !g.isEmpty && containsSub ql (pyLower g) then (6 : Int) else 0
      | none => 0)
    let score := score + (match p.surname with
      | some s => if !s.isEmpty && containsSub ql (pyLower s) then (6 : Int) else 0
      | none => 0)
    let score := score + (match p.nickname with
      | some n => if !n.isEmpty && containsSub ql (pyLower n) then (4 : Int) else 0
      | none => 0)
    let score := score + (if p.birthDate.isSome then (1 : Int) else 0)
    let score := score + (if p.deathDate.isSome || p.isLiving then (1 : Int) else 0)
    score

/-- Insert into a descending list, after every earlier element of equal or
greater score. -/
def insertScoredDesc (x : Person × Int) : List (Person × Int) → List (Person × Int)
  | [] => [x]
  | y :: ys => if x.2 ≤ y.2 then y :: insertScoredDesc x ys else x :: y :: ys

/-- `person_data.sort(key=lambda x: x["search_relevance"], reverse=True)`:
Python's sort is stable, and a stable sort by a key is unique as a function,
so this stable insertion sort is extensionally the same operation. -/
def sortScoredDesc (l : List (Person × Int)) : List (Person × Int) :=
  l.foldl (fun acc x => insertScoredDesc x acc) []

/-- `FamilyService.search_persons` (lines 101-154): candidate filtering (the
ILIKE disjunction plus optional source filter), the SQL `LIMIT` (applied
before scoring), per-candidate relevance, and the stable descending sort. -/
def searchPersons (persons : List Person) (query : List Char)
    (srcId : Option Nat) (limit : Nat) : List (Person × Int) :=
  let term := pyStrip query
  let cond : Person → Bool := fun p =>
    (if term.isEmpty then true else searchCond p term) &&
    (match srcId with | some sid => p.sourceId == sid | none => true)
  let candidates := (persons.filter cond).take limit
  sortScoredDesc (candidates.map fun p => (p, calcSearchRelevance p query))

/-! ### Demo traversal service
(src/Demo/backend/app/services/family_data.py, models/person.py) -/

structure DemoPerson where
  id : List Char
  firstName : List Char
  lastName : List Char
  birthDate : Option (List Char) := none
  deathDate : Option (List Char) := none
  gender : Option (List Char) := none
  parents : List (List Char) := []
  spouse : Option (List Char) := none
  children : List (List Char) := []
deriving DecidableEq, Repr

structure FamilyDataService where
  persons : List DemoPerson
deriving DecidableEq, Repr

/-- `FamilyDataService.get_person_by_id` through `persons_dict`
(`{p.id: p for p in persons}`: the last entry for an id wins). -/
def getPersonById (svc : FamilyDataService) (personId : List Char) :
    Option DemoPerson :=
  svc.persons.reverse.find? fun p => p.id == personId

mutual
/-- `FamilyDataService.get_ancestors` (family_data.py lines 184-197), a
recursive walk with no visited set, instrumented with explicit fuel: `none`
means the call has not returned within `fuel` nested recursive calls.  The
Python function terminates on an input exactly when some finite fuel
suffices. -/
def getAncestorsFuel (svc : FamilyDataService) :
    Nat → List Char → Option (List DemoPerson)
  | 0, _ => none
  | n + 1, personId =>
    match getPersonById svc personId with
    | none => some []
    | some p => ancestorsLoop svc n p.parents
termination_by n _ => (n, 0)

/-- The `for parent_id in person.parents` loop of `get_ancestors`. -/
def ancestorsLoop (svc : FamilyDataService) :
    Nat → List (List Char) → Option (List DemoPerson)
  | _, [] => some []
  | n, parentId :: rest =>
    match getPersonById svc parentId with
    | none => ancestorsLoop svc n rest
    | some parent =>
      match getAncestorsFuel svc n parentId with
      | none => none
      | some sub =>
        match ancestorsLoop svc n rest with
        | none => none
        | some tail => some (parent :: (sub ++ tail))
termination_by n l => (n, l.length + 1)
end

/-- The Python `get_ancestors(person_id)` call returns (with any finite
recursion budget). -/
def DemoAncTerminates (svc : FamilyDataService) (personId : List Char) : Prop :=
  ∃ n, (getAncestorsFuel svc n personId).isSome

/-! ### The persons relationship-path API route

Modelled from the spec: the route `GET
/api/persons/{id}/relationship-path/{id2}` is exercised by
`src/test/test_api_routes.py` (`test_get_relationship_path_same_person`
expects HTTP 400 `Cannot find relationship path between the same person`
without touching the service) but its handler is absent from
`src/src/backend/routes/persons.py`; per the spec, identical person ids are
rejected as InvalidParameter at the boundary, before any store access.  The
path-search service itself is abstracted as the `service` parameter. -/
def relationshipPathRoute (person1Id person2Id : Nat) (db : DB)
    (service : Nat → Nat → DB → Option (List (Nat × List Char × Nat))) :
    Except (List Char) (Option (List (Nat × List Char × Nat))) :=
  if person1Id == person2Id then
    Except.error ( "Cannot find relationship path between the same person".data)
  else
    Except.ok (service person1Id person2Id db)

/-! ### Concrete instances used by the claim theorems -/

/-- An empty store (fresh primary keys start at 10). -/
def dbEmpty : DB :=
  { sources := [], persons := [], relationships := [], events := [],
    places := [], nextId := 10, failIds := [] }

/-- A minimal INDI record with a NAME and a SEX child. -/
def gIndi (ptr nm sx : List Char) : GRecord :=
  { kind := RecKind.indi, pointer := ptr,
    children := [GElem.mk ( "NAME".data) nm [], GElem.mk ( "SEX".data) sx []] }

/-- The 2-generation file of concrete scenario 1: I1 (husband), I2 (wife),
I3 (child of I1 and I2) in one FAM record. -/
def c6Records : List GRecord :=
  [ gIndi ( "@I1@".data) ( "John /Smith/".data) ( "M".data),
    gIndi ( "@I2@".data) ( "Mary /Jones/".data) ( "F".data),
    gIndi ( "@I3@".data) ( "Bob /Smith/".data) ( "M".data),
    { kind := RecKind.fam, pointer := "@F1@".data,
      children := [GElem.mk ( "HUSB".data) ( "@I1@".data) [],
                   GElem.mk ( "WIFE".data) ( "@I2@".data) [],
                   GElem.mk ( "CHIL".data) ( "@I3@".data) []] }]

def c6Run : DB × Except (List Char) (Source × ImportStats) :=
  parseAndImportFile (fun _ => "h1".data) (fun _ => Except.ok c6Records)
    dbEmpty ( "0 HEAD ...".data) ( "family.ged".data) none

/-- A source row in `processing` state owned by service state `c2St`. -/
def c2Src : Source :=
  { id := 1, name := "s.ged".data, filename := "s.ged".data,
    fileHash := "h".data, fileSize := 1, status := "processing".data,
    personsCount := 0, familiesCount := 0, errorMessage := none, notes := none,
    isActive := true }

/-- Import state whose database raises on flushing the person `@I2@`. -/
def c2St : ImportState :=
  { db := { dbEmpty with sources := [c2Src], failIds := [ "@I2@".data] },
    sourceRecord := some c2Src, personMap := [], placeCache := [] }

def c2Recs : List GRecord :=
  [ gIndi ( "@I1@".data) ( "A /B/".data) ( "M".data),
    gIndi ( "@I2@".data) ( "C /D/".data) ( "F".data),
    gIndi ( "@I3@".data) ( "E /F/".data) ( "M".data)]

def c2Run : ImportStats × ImportState := importGedcomData c2St c2Recs

/-- An already-imported active source with id 7 and 5 imported persons. -/
def c1Existing : Source :=
  { id := 7, name := "first.ged".data, filename := "first.ged".data,
    fileHash := "h1".data, fileSize := 3, status := "completed".data,
    personsCount := 5, familiesCount := 2, errorMessage := none, notes := none,
    isActive := true }

def c1Db : DB := { dbEmpty with sources := [c1Existing] }

def c1Run : DB × Except (List Char) (Source × ImportStats) :=
  parseAndImportFile (fun _ => "h1".data) (fun _ => Except.ok [])
    c1Db ( "0 HEAD ...".data) ( "second.ged".data) none

def c4Run : DB × Except (List Char) (Source × ImportStats) :=
  parseAndImportFile (fun _ => "h2".data)
    (fun _ => Except.error ( "bad gedcom".data))
    dbEmpty ( "garbage".data) ( "broken.ged".data) none

/-- Import state for the individual-import witnesses. -/
def c5St : ImportState :=
  { db := { dbEmpty with sources := [c2Src] }, sourceRecord := some c2Src,
    personMap := [], placeCache := [] }

/-- An INDI record carrying no date information at all. -/
def c5NoDatesRec : GRecord := gIndi ( "@N@".data) ( "No /Dates/".data) ( "M".data)

/-- An INDI record with a death date. -/
def c5DeathRec : GRecord :=
  { kind := RecKind.indi, pointer := "@W@".data,
    children := [GElem.mk ( "DEAT".data) [] [GElem.mk ( "DATE".data) ( "1900".data) []]] }

/-- The person produced by importing `c5DeathRec` in state `c5St`. -/
def c5wPerson : Person :=
  { id := 10, sourceId := 1, gedcomId := "@W@".data, givenNames := none,
    surname := none, nickname := none, gender := none, birthDate := none,
    deathDate := some ⟨1900, 1, 1⟩, isLiving := false }

/-- The store of concrete scenario 3, in the two possible input orders. -/
def john : Person :=
  { id := 1, sourceId := 1, gedcomId := [], givenNames := some ( "John".data),
    surname := some ( "Smith".data), nickname := none, gender := none,
    birthDate := none, deathDate := none, isLiving := false }

def johnny : Person :=
  { john with
    id := 2
    givenNames := some ( "Johnny".data)
    surname := some ( "Smithson".data) }

/-- The cyclic demo dataset: A is a parent of B and B is a parent of A. -/
def pA : DemoPerson :=
  { id := ['a'], firstName := ['A'], lastName := ['X'], parents := [['b']] }

def pB : DemoPerson :=
  { id := ['b'], firstName := ['B'], lastName := ['X'], parents := [['a']] }

def cycSvc : FamilyDataService := { persons := [pA, pB] }

/-- The same cycle in the relational store: 1 parent-of 2 and 2 parent-of 1. -/
def cycRel (a b : Nat) : Rel :=
  { sourceId := 1, person1Id := a, person2Id := b,
    relType := "parent-child".data, relSubtype := none, isPrimary := true,
    isCurrent := true, marriageDate := none }

def cycPerson (i : Nat) : Person :=
  { id := i, sourceId := 1, gedcomId := [], givenNames := none, surname := none,
    nickname := none, gender := none, birthDate := none, deathDate := none,
    isLiving := true }

def cycDb : DB :=
  { sources := [], persons := [cycPerson 1, cycPerson 2],
    relationships := [cycRel 1 2, cycRel 2 1], events := [], places := [],
    nextId := 3, failIds := [] }

/-- A person with a birth date, for the age witnesses. -/
def c10p : Person :=
  { id := 3, sourceId := 1, gedcomId := [], givenNames := none, surname := none,
    nickname := none, gender := none, birthDate := some ⟨2000, 6, 15⟩,
    deathDate := none, isLiving := true }

/-! ### Claim theorems -/

/-- C1 (corrected): for every import whose content hash matches an existing
Source row, the import fails with the duplicate condition and the store —
hence every source's `persons_count` — is unchanged; but the `ValueError`
carries the existing source's *name*, not its id. -/
theorem claim_C1 (hashFn : List Char → List Char)
    (parseFn : List Char → Except (List Char) (List GRecord))
    (db : DB) (content filename : List Char) (sname : Option (List Char))
    (ex : Source)
    (h : db.sources.find? (fun s => s.fileHash == hashFn content) = some ex) :
    parseAndImportFile hashFn parseFn db content filename sname =
      (db, Except.error ( "File already imported: ".data ++ ex.name)) := by
  simp only [parseAndImportFile, checkDuplicateImport, h]

/-- Witness for C1 at a concrete store: the duplicate of `first.ged`. -/
theorem claim_C1_witness :
    c1Run = (c1Db, Except.error ( "File already imported: ".data ++ c1Existing.name)) :=
  claim_C1 (fun _ => "h1".data) (fun _ => Except.ok []) c1Db
    ( "0 HEAD ...".data) ( "second.ged".data) none c1Existing (by decide)

/-- Counterexample to C1 as stated: the duplicate condition's payload is
`File already imported: first.ged`; the existing source's id is 7 and the
digit `7` occurs nowhere in the payload, so the condition does not carry the
id.  The existing source's `persons_count` 5 is unchanged. -/
theorem claim_C1_counterexample :
    c1Run.2 = Except.error ( "File already imported: first.ged".data) ∧
    containsSub ( "7".data) ( "File already imported: first.ged".data) = false ∧
    c1Run.1.sources.map Source.personsCount = [5] := by decide

/-- C4 (confirmed): when the GEDCOM parse step fails, the import aborts with
the exception, the created Source row is queryable with status `error` and
the exception text as message, and no person data was touched. -/
theorem claim_C4 (hashFn : List Char → List Char)
    (parseFn : List Char → Except (List Char) (List GRecord))
    (db : DB) (content filename : List Char) (sname : Option (List Char))
    (err : List Char)
    (hdup : db.sources.find? (fun s => s.fileHash == hashFn content) = none)
    (hparse : parseFn content = Except.error err) :
    (parseAndImportFile hashFn parseFn db content filename sname).2 =
      Except.error err ∧
    (∃ src, src ∈ (parseAndImportFile hashFn parseFn db content filename sname).1.sources ∧
      src.id = db.nextId ∧ src.status = "error".data ∧
      src.errorMessage = some err) ∧
    (parseAndImportFile hashFn parseFn db content filename sname).1.persons =
      db.persons := by
  simp only [parseAndImportFile, checkDuplicateImport, hdup, hparse,
    updateSource]
  refine ⟨trivial, ?_, trivial⟩
  exact ⟨_, List.mem_map_of_mem _ (List.mem_append_right _ (List.mem_singleton_self _)),
    by simp [markError], by simp [markError], by simp [markError]⟩

/-- Witness for C4: a parse failure on an empty store. -/
theorem claim_C4_witness :
    c4Run.2 = Except.error ( "bad gedcom".data) ∧
    (∃ src, src ∈ c4Run.1.sources ∧ src.id = dbEmpty.nextId ∧
      src.status = "error".data ∧ src.errorMessage = some ( "bad gedcom".data)) ∧
    c4Run.1.persons = dbEmpty.persons :=
  claim_C4 (fun _ => "h2".data) (fun _ => Except.error ( "bad gedcom".data))
    dbEmpty ( "garbage".data) ( "broken.ged".data) none ( "bad gedcom".data)
    (by decide) rfl

/-- C5 (corrected): every person built by `_import_individual` has
`is_living = (death_date is None)`; so `is_living` is false whenever a death
date is present, but a person with no date information at all is marked
living rather than left at false/unknown. -/
theorem claim_C5 (st : ImportState) (r : GRecord) (p : Person)
    (h : (importIndividualBody st r).map (fun x => x.2) = Except.ok p) :
    p.isLiving = p.deathDate.isNone := by
  unfold importIndividualBody at h
  cases hsrc : st.sourceRecord with
  | none => rw [hsrc] at h; simp [Except.map] at h
  | some src =>
    rw [hsrc] at h
    by_cases hf : r.pointer ∈ st.db.failIds
    · simp [hf, Except.map] at h
    · simp [hf, Except.map] at h
      subst h
      rfl

/-- Witness for C5: importing a record with death date `1900` yields a person
with a death date and `is_living = false`. -/
theorem claim_C5_witness :
    c5wPerson.isLiving = c5wPerson.deathDate.isNone ∧
    c5wPerson.isLiving = false :=
  ⟨claim_C5 c5St c5DeathRec c5wPerson (by decide), by decide⟩

/-- Counterexample to C5 as stated: importing a record with no birth and no
death date yields `is_living = true` (the "person is living" guess), not the
claimed false/unknown default. -/
theorem claim_C5_counterexample :
    (importIndividual c5St c5NoDatesRec).map (fun x => x.2.map Person.isLiving) =
      Except.ok (some true) := by decide

/-- C6 (confirmed): importing the 2-generation file (I1 husband, I2 wife, I3
child of both, one FAM record) yields `persons_imported = 3` and
`relationships_imported = 3`: one spouse relationship and two parent-child
relationships. -/
theorem claim_C6 :
    c6Run.2.map (fun r => (r.2.personsImported, r.2.relationshipsImported)) =
      Except.ok (3, 3) ∧
    (c6Run.1.relationships.filter fun r => r.relType == "spouse".data).length = 1 ∧
    (c6Run.1.relationships.filter fun r => r.relType == "parent-child".data).length = 2 ∧
    c6Run.1.persons.length = 3 := by decide

/-- C7 (corrected): over the store containing `John Smith` and
`Johnny Smithson`, `search("Smith", limit=10)` scores both at exactly 8.0
(`Smith` is a substring of both full names and of both surnames), so there is
no strict ranking; equally-scored results keep their stable input order, in
either input order. -/
theorem claim_C7 :
    calcSearchRelevance john ( "Smith".data) = 16 ∧
    calcSearchRelevance johnny ( "Smith".data) = 16 ∧
    (searchPersons [john, johnny] ( "Smith".data) none 10).map (fun x => x.1.id) =
      [1, 2] ∧
    (searchPersons [johnny, john] ( "Smith".data) none 10).map (fun x => x.1.id) =
      [2, 1] := by decide

/-- Counterexample to C7 as stated: with the same two persons stored in the
order `[Johnny Smithson, John Smith]`, the search returns Johnny Smithson
first — `John Smith` is not ranked strictly above — because the two
relevance scores are equal. -/
theorem claim_C7_counterexample :
    (searchPersons [johnny, john] ( "Smith".data) none 10).map (fun x => x.1.id) =
      [2, 1] ∧
    calcSearchRelevance john ( "Smith".data) =
      calcSearchRelevance johnny ( "Smith".data) := by decide

/-- C8 (confirmed, spec-modelled): a relationship-path request with both
endpoints equal is rejected as InvalidParameter; the result is the error for
every store and every path service, i.e. before any store access. -/
theorem claim_C8 (a : Nat) (db : DB)
    (service : Nat → Nat → DB → Option (List (Nat × List Char × Nat))) :
    relationshipPathRoute a a db service =
      Except.error ( "Cannot find relationship path between the same person".data) := by
  simp [relationshipPathRoute]

/-- C10 (confirmed): `get_age` returns `None` exactly when the birth date is
unknown, and otherwise a non-negative integer (clamped at 0). -/
theorem claim_C10 (p : Person) (atDate : Option PyDate) (today : PyDate) :
    ((getAge p atDate today).isNone ↔ p.birthDate = none) ∧
    ∀ n : Int, getAge p atDate today = some n → 0 ≤ n := by
  constructor
  · cases hb : p.birthDate <;> simp [getAge, hb]
  · intro n hn
    cases hb : p.birthDate with
    | none => simp [getAge, hb] at hn
    | some b =>
      simp only [getAge, hb, Option.some.injEq] at hn
      rw [← hn]
      exact le_max_left 0 _

/-- Witness for C10: a birth in 2000 queried at 1990 clamps to age 0. -/
theorem claim_C10_witness :
    getAge c10p (some ⟨1990, 1, 1⟩) ⟨2024, 1, 1⟩ = some 0 ∧ (0 : Int) ≤ 0 :=
  ⟨by decide, (claim_C10 c10p (some ⟨1990, 1, 1⟩) ⟨2024, 1, 1⟩).2 0 (by decide)⟩

/-- `_import_individual` never propagates an exception: its internal handler
degrades every failure to `None`. -/
theorem importIndividual_isOk (st : ImportState) (r : GRecord) :
    ∃ st' p, importIndividual st r = Except.ok (st', p) := by
  unfold importIndividual
  cases h : importIndividualBody st r with
  | ok a =>
    obtain ⟨st', p⟩ := a
    exact ⟨st', some p, rfl⟩
  | error e => exact ⟨st, none, rfl⟩

/-- The individual pass never touches the error list. -/
theorem indiFold_errors (l : List GRecord) :
    ∀ acc : ImportState × ImportStats,
      ((l.foldl indiStep acc).2).errors = acc.2.errors := by
  induction l with
  | nil => intro acc; rfl
  | cons r t ih =>
    intro acc
    rw [List.foldl_cons, ih]
    obtain ⟨st', p, h⟩ := importIndividual_isOk acc.1 r
    unfold indiStep
    rw [h]
    cases p <;> rfl

/-- The family pass never touches the error list. -/
theorem famFold_errors (l : List GRecord) :
    ∀ acc : ImportState × ImportStats,
      ((l.foldl famStep acc).2).errors = acc.2.errors := by
  induction l with
  | nil => intro acc; rfl
  | cons r t ih =>
    intro acc
    rw [List.foldl_cons, ih]
    rfl

/-- C2 (corrected): a failing individual never aborts the import (both the
per-record handlers and `_import_individual`'s own handler catch it), but no
entry is ever appended to the statistics' error list — `_import_individual`
swallows the exception and returns `None` before the outer handler that
would append can fire, so the error list of every import is empty. -/
theorem claim_C2 (st : ImportState) (recs : List GRecord) :
    (importGedcomData st recs).1.errors = [] := by
  show ((recs.filter fun r => r.kind == RecKind.fam).foldl famStep
    ((recs.filter fun r => r.kind == RecKind.indi).foldl indiStep
      (st, ({} : ImportStats)))).2.errors = []
  rw [famFold_errors, indiFold_errors]

/-- Counterexample to C2 as stated: with a store that raises on inserting
`@I2@`, importing `[@I1@, @I2@, @I3@]` imports two persons and continues past
the failure, yet `errors` is empty — no entry identifying `@I2@` was
appended. -/
theorem claim_C2_counterexample :
    c2Run.1.errors = [] ∧ c2Run.1.personsImported = 2 ∧
    c2Run.2.db.persons.map Person.gedcomId = [ "@I1@".data, "@I3@".data] := by
  decide

/-- Generic foldl invariant preservation. -/
theorem foldl_preserve {α β : Type} {P : β → Prop} {f : β → α → β}
    (hstep : ∀ b a, P b → P (f b a)) :
    ∀ (l : List α) (b : β), P b → P (l.foldl f b) := by
  intro l
  induction l with
  | nil => intro b hb; exact hb
  | cons x t ih => intro b hb; exact ih _ (hstep b x hb)

/-- One collection step keeps the next frontier duplicate-free and disjoint
from the visited set. -/
theorem collectOther_inv (db : DB) (srcId : Option Nat) (visited : List Nat)
    (r : Rel) (nx : List Nat) (pid : Nat)
    (h : nx.Nodup ∧ ∀ x ∈ nx, x ∉ visited) :
    (collectOther db srcId visited r nx pid).Nodup ∧
    ∀ x ∈ collectOther db srcId visited r nx pid, x ∉ visited := by
  obtain ⟨h1, h2⟩ := h
  unfold collectOther
  cases getOtherPersonId r pid with
  | none => exact ⟨h1, h2⟩
  | some other =>
    dsimp only
    split
    · next hcond =>
      have hv : other ∉ visited := by
        have := (Bool.and_eq_true _ _).mp ((Bool.and_eq_true _ _).mp hcond).1
        simpa [List.contains] using this.1
      have hn : other ∉ nx := by
        have := (Bool.and_eq_true _ _).mp ((Bool.and_eq_true _ _).mp hcond).1
        simpa [List.contains] using this.2
      refine ⟨List.nodup_append.mpr ⟨h1, List.nodup_singleton _, ?_⟩, ?_⟩
      · intro a ha hb
        rw [List.mem_singleton] at hb
        exact hn (hb ▸ ha)
      · intro x hx
        rcases List.mem_append.mp hx with hx | hx
        · exact h2 x hx
        · rw [List.mem_singleton] at hx
          exact hx ▸ hv
    · exact ⟨h1, h2⟩

/-- The whole next-frontier computation yields a duplicate-free set disjoint
from the visited set. -/
theorem nextFrontier_inv (db : DB) (srcId : Option Nat) (visited : List Nat)
    (current : List Nat) (rels : List Rel) :
    (rels.foldl (collectFromRel db srcId visited current) []).Nodup ∧
    ∀ x ∈ rels.foldl (collectFromRel db srcId visited current) [],
      x ∉ visited := by
  have hstep : ∀ nx r, (nx.Nodup ∧ ∀ x ∈ nx, x ∉ visited) →
      ((collectFromRel db srcId visited current nx r).Nodup ∧
       ∀ x ∈ collectFromRel db srcId visited current nx r, x ∉ visited) := by
    intro nx r hnx
    unfold collectFromRel
    exact foldl_preserve (fun b a hb => collectOther_inv db srcId visited r b a hb)
      current nx hnx
  exact foldl_preserve hstep rels [] ⟨List.nodup_nil, by simp⟩

/-- Main invariant of the traversal loop: the accumulated persons have
pairwise distinct ids and come from the store. -/
theorem relatedGo_spec (db : DB) (srcId : Option Nat)
    (hdb : (db.persons.map Person.id).Nodup) :
    ∀ (g : Nat) (visited current : List Nat) (acc : List Person),
      (acc.map Person.id).Nodup →
      (∀ p ∈ acc, p.id ∈ visited) →
      (∀ x ∈ current, x ∉ visited) →
      ((relatedGo db srcId g visited current acc).map Person.id).Nodup ∧
      ∀ p ∈ relatedGo db srcId g visited current acc,
        p ∈ acc ∨ p ∈ db.persons := by
  intro g
  induction g with
  | zero =>
    intro visited current acc h1 _ _
    exact ⟨h1, fun p hp => Or.inl hp⟩
  | succ g ih =>
    intro visited current acc h1 h2 h3
    rw [relatedGo]
    by_cases hcur : current.isEmpty
    · rw [if_pos hcur]
      exact ⟨h1, fun p hp => Or.inl hp⟩
    · rw [if_neg hcur]
      have hgen : ∀ p ∈ db.persons.filter (fun p =>
          current.contains p.id &&
          (match srcId with | some sid => p.sourceId == sid | none => true)),
          p ∈ db.persons ∧ p.id ∈ current := by
        intro p hp
        obtain ⟨hmem, hpred⟩ := List.mem_filter.mp hp
        refine ⟨hmem, ?_⟩
        have := ((Bool.and_eq_true _ _).mp hpred).1
        simpa [List.contains] using this
      obtain ⟨hnext1, hnext2⟩ := nextFrontier_inv db srcId (visited ++ current)
        current (db.relationships.filter fun r =>
          current.contains r.person1Id || current.contains r.person2Id)
      have hinv1 : ((acc ++ db.persons.filter (fun p =>
          current.contains p.id &&
          (match srcId with
           | some sid => p.sourceId == sid
           | none => true))).map Person.id).Nodup := by
        rw [List.map_append, List.nodup_append]
        refine ⟨h1, ((List.filter_sublist _).map Person.id).nodup hdb, ?_⟩
        intro a ha hb
        obtain ⟨p, hp, hpa⟩ := List.mem_map.mp ha
        obtain ⟨q, hq, hqa⟩ := List.mem_map.mp hb
        have hqc : q.id ∈ current := (hgen q hq).2
        exact h3 q.id hqc (by rw [hqa, ← hpa]; exact h2 p hp)
      have hinv2 : ∀ p ∈ acc ++ db.persons.filter (fun p =>
          current.contains p.id &&
          (match srcId with
           | some sid => p.sourceId == sid
           | none => true)), p.id ∈ visited ++ current := by
        intro p hp
        rcases List.mem_append.mp hp with hp | hp
        · exact List.mem_append_left _ (h2 p hp)
        · exact List.mem_append_right _ (hgen p hp).2
      have hres := ih (visited ++ current)
        ((db.relationships.filter fun r =>
            current.contains r.person1Id || current.contains r.person2Id).foldl
          (collectFromRel db srcId (visited ++ current) current) [])
        (acc ++ db.persons.filter (fun p =>
          current.contains p.id &&
          (match srcId with
           | some sid => p.sourceId == sid
           | none => true)))
        hinv1 hinv2 hnext2
      refine ⟨hres.1, fun p hp => ?_⟩
      rcases hres.2 p hp with hp2 | hp2
      · rcases List.mem_append.mp hp2 with hp3 | hp3
        · exact Or.inl hp3
        · exact Or.inr (hgen p hp3).1
      · exact Or.inr hp2

/-- C9 (corrected): the bounded traversal of `FamilyService` terminates on
every store — cyclic relationship data included — returning a finite subset
of the stored persons with each person at most once; the Demo service's
recursive ancestors walk has no such guarantee (see the counterexample). -/
theorem claim_C9 (db : DB) (focal maxGen : Nat) (srcId : Option Nat)
    (hdb : (db.persons.map Person.id).Nodup) :
    ((relatedPersons db focal maxGen srcId).map Person.id).Nodup ∧
    ∀ p ∈ relatedPersons db focal maxGen srcId, p ∈ db.persons := by
  have h := relatedGo_spec db srcId hdb maxGen [] [focal] []
    (by simp) (by simp) (by simp)
  exact ⟨h.1, fun p hp => (h.2 p hp).resolve_left (by simp)⟩

/-- Witness for C9: on the two-person parent cycle the bounded traversal
returns each person once. -/
theorem claim_C9_witness :
    ((relatedPersons cycDb 1 10 none).map Person.id).Nodup :=
  (claim_C9 cycDb 1 10 none (by decide)).1

/-- On the cyclic dataset the Demo recursion never returns, whatever the
recursion budget. -/
theorem cyc_diverges (n : Nat) :
    getAncestorsFuel cycSvc n (['a']) = none ∧
    getAncestorsFuel cycSvc n (['b']) = none := by
  induction n with
  | zero => exact ⟨by simp [getAncestorsFuel], by simp [getAncestorsFuel]⟩
  | succ n ih =>
    have ea : getPersonById cycSvc (['a']) = some pA := rfl
    have eb : getPersonById cycSvc (['b']) = some pB := rfl
    constructor
    · simp only [getAncestorsFuel, ea]
      show ancestorsLoop cycSvc n pA.parents = none
      simp only [pA, ancestorsLoop, eb]
      rw [ih.2]
    · simp only [getAncestorsFuel, eb]
      show ancestorsLoop cycSvc n pB.parents = none
      simp only [pB, ancestorsLoop, ea]
      rw [ih.1]

/-- Counterexample to C9 as stated: the Demo `get_ancestors` does not
terminate on the dataset where A is a parent of B and B a parent of A — no
finite recursion budget makes it return. -/
theorem claim_C9_counterexample : ¬ DemoAncTerminates cycSvc (['a']) := by
  rintro ⟨n, hn⟩
  rw [(cyc_diverges n).1] at hn
  simp at hn

/-! ### Lemmas about `pyStrip`, towards the date-qualifier invariance -/

theorem dropWhile_eq_self_append {α : Type} {p : α → Bool} {l r : List α}
    (h : l.dropWhile p = l) (hne : l ≠ []) :
    (l ++ r).dropWhile p = l ++ r := by
  cases l with
  | nil => exact absurd rfl hne
  | cons a t =>
    have hpa : p a = false := by
      by_contra hb
      rw [Bool.not_eq_false] at hb
      rw [List.dropWhile_cons, if_pos hb] at h
      have hlen := congrArg List.length h
      have hle : (t.dropWhile p).length ≤ t.length :=
        (List.dropWhile_suffix p).sublist.length_le
      simp at hlen
      omega
    rw [List.cons_append, List.dropWhile_cons, if_neg (by simp [hpa])]

theorem dropLeftWs_of_strip {u : List Char} (h : pyStrip u = u) :
    dropLeftWs u = u := by
  refine (List.dropWhile_suffix isWs).eq_of_length ?_
  have l1 : (pyStrip u).length ≤ (dropLeftWs u).length := by
    show (dropRightWs (dropLeftWs u)).length ≤ _
    unfold dropRightWs
    rw [List.length_reverse]
    calc ((dropLeftWs u).reverse.dropWhile isWs).length
        ≤ (dropLeftWs u).reverse.length :=
          (List.dropWhile_suffix isWs).sublist.length_le
      _ = (dropLeftWs u).length := List.length_reverse _
  have l2 : (dropLeftWs u).length ≤ u.length :=
    (List.dropWhile_suffix isWs).sublist.length_le
  rw [h] at l1
  show (dropLeftWs u).length = u.length
  omega

theorem dropRightWs_of_strip {u : List Char} (h : pyStrip u = u) :
    dropRightWs u = u := by
  have h1 := dropLeftWs_of_strip h
  calc dropRightWs u = dropRightWs (dropLeftWs u) := by rw [h1]
    _ = pyStrip u := rfl
    _ = u := h

theorem dropRightWs_append {v u : List Char} (hu : dropRightWs u = u)
    (hne : u ≠ []) : dropRightWs (v ++ u) = v ++ u := by
  unfold dropRightWs
  rw [List.reverse_append]
  have hrev : u.reverse.dropWhile isWs = u.reverse := by
    have h2 : (u.reverse.dropWhile isWs).reverse = u := hu
    calc u.reverse.dropWhile isWs
        = ((u.reverse.dropWhile isWs).reverse).reverse :=
          (List.reverse_reverse _).symm
      _ = u.reverse := by rw [h2]
  rw [dropWhile_eq_self_append hrev (by simpa using hne)]
  rw [List.reverse_append, List.reverse_reverse, List.reverse_reverse]

theorem pyStrip_cons_ws {u : List Char} (h : pyStrip u = u) :
    pyStrip (' ' :: u) = u := by
  have h1 := dropLeftWs_of_strip h
  show dropRightWs (dropLeftWs (' ' :: u)) = u
  have h2 : dropLeftWs (' ' :: u) = dropLeftWs u := by
    unfold dropLeftWs
    rw [List.dropWhile_cons, if_pos (by decide)]
  rw [h2, h1]
  exact dropRightWs_of_strip h

theorem stripQualifier_no_match :
    ∀ (qs : List (List Char)) (d : List Char),
      (∀ q ∈ qs, startsWithList (q ++ [' ']) d = false) →
      stripQualifier qs d = d := by
  intro qs
  induction qs with
  | nil => intro d _; rfl
  | cons q t ih =>
    intro d h
    unfold stripQualifier
    rw [if_neg (by rw [h q (List.mem_cons_self q t)]; simp)]
    exact ih d fun q' hq' => h q' (List.mem_cons_of_mem q hq')

/-- C3 (confirmed): the date-normalization routine is total (a structured
date or nothing, never an exception); the qualifier examples parse, with
`BET 1850 AND 1855` extracting the same date as its qualifier-free remainder;
and stripping any leading qualifier never changes which calendar date is
extracted from the remaining text, for every remaining text that is trimmed
and does not itself start with a qualifier. -/
theorem claim_C3 :
    (∀ s : List Char, parseDate s = none ∨ ∃ d, parseDate s = some d) ∧
    (parseDate ( "ABT 1875".data) = some ⟨1875, 1, 1⟩ ∧
     parseDate ( "BEF 1900".data) = some ⟨1900, 1, 1⟩ ∧
     parseDate ( "BET 1850 AND 1855".data) = some ⟨1850, 1, 1⟩ ∧
     parseDate ( "1850 AND 1855".data) = some ⟨1850, 1, 1⟩) ∧
    (∀ q s, q ∈ dateQualifiers → pyStrip (pyUpper s) = pyUpper s → s ≠ [] →
      (∀ q' ∈ dateQualifiers, startsWithList (q' ++ [' ']) (pyUpper s) = false) →
      parseDate (q ++ ' ' :: s) = parseDate s) := by
  refine ⟨?_, ⟨by decide, by decide, by decide, by decide⟩, ?_⟩
  · intro s
    cases h : parseDate s with
    | none => exact Or.inl rfl
    | some d => exact Or.inr ⟨d, rfl⟩
  · intro q s hq hstrip hne hnoq
    have hu_ne : pyUpper s ≠ [] := by simpa [pyUpper] using hne
    have hse : s.isEmpty = false := by
      cases s with
      | nil => exact absurd rfl hne
      | cons a t => rfl
    have hrhs : parseDate s = parseDateFormats (rangeHandle (pyUpper s)) := by
      unfold parseDate normalizeDateString
      rw [if_neg (by simp [hse]), if_neg (by simp [hse]), hstrip,
        stripQualifier_no_match _ _ hnoq]
    simp only [dateQualifiers, List.mem_cons, List.not_mem_nil, or_false] at hq
    have hUp : pyUpper q = q := by
      rcases hq with rfl | rfl | rfl | rfl | rfl | rfl | rfl | rfl | rfl <;> rfl
    have hLeft : dropLeftWs (q ++ ' ' :: pyUpper s) = q ++ ' ' :: pyUpper s := by
      rcases hq with rfl | rfl | rfl | rfl | rfl | rfl | rfl | rfl | rfl <;> rfl
    have hQual : stripQualifier dateQualifiers (q ++ ' ' :: pyUpper s) =
        pyStrip (' ' :: pyUpper s) := by
      rcases hq with rfl | rfl | rfl | rfl | rfl | rfl | rfl | rfl | rfl <;> rfl
    have hne2 : (q ++ ' ' :: s).isEmpty = false := by
      cases q <;> rfl
    have hStripApp : pyStrip (q ++ ' ' :: pyUpper s) = q ++ ' ' :: pyUpper s := by
      unfold pyStrip
      rw [hLeft]
      have heq : q ++ ' ' :: pyUpper s = (q ++ [' ']) ++ pyUpper s := by simp
      rw [heq]
      exact dropRightWs_append (dropRightWs_of_strip hstrip) hu_ne
    calc parseDate (q ++ ' ' :: s)
        = parseDateFormats (rangeHandle (stripQualifier dateQualifiers
            (pyStrip (pyUpper (q ++ ' ' :: s))))) := by
          unfold parseDate normalizeDateString
          rw [if_neg (by simp [hne2]), if_neg (by simp [hne2])]
      _ = parseDateFormats (rangeHandle (stripQualifier dateQualifiers
            (pyStrip (q ++ ' ' :: pyUpper s)))) := by
          unfold pyUpper
          rw [List.map_append, List.map_cons]
          unfold pyUpper at hUp
          rw [hUp, show Char.toUpper ' ' = ' ' from rfl]
      _ = parseDateFormats (rangeHandle (stripQualifier dateQualifiers
            (q ++ ' ' :: pyUpper s))) := by rw [hStripApp]
      _ = parseDateFormats (rangeHandle (pyStrip (' ' :: pyUpper s))) := by
          rw [hQual]
      _ = parseDateFormats (rangeHandle (pyUpper s)) := by
          rw [pyStrip_cons_ws hstrip]
      _ = parseDate s := hrhs.symm

/-- Witness for C3: stripping `ABT` from `ABT 1875` leaves the extracted
date (1875-01-01) unchanged. -/
theorem claim_C3_witness :
    parseDate ( "ABT 1875".data) = parseDate ( "1875".data) ∧
    parseDate ( "1875".data) = some ⟨1875, 1, 1⟩ :=
  ⟨claim_C3.2.2 ( "ABT".data) ( "1875".data) (by decide) (by decide)
    (by decide) (by decide), by decide⟩

end TreeTalk
